import Mathlib

set_option linter.unusedVariables false

/-!
Shallow embedding of the core of data_police (src/filesystem_mcp.py):
the subprocess-based MCP tool-protocol client (MCPFilesystemClient),
the policy resolver (get_project_guidelines), the directory snapshotter
(list_project_structure_sync) and the validation orchestrator
(run_validation_async), together with theorems settling the frozen
claims about them.
-/

namespace DataPolice

/-! ## Lexicographic string order

Python's sorted on a list of str orders strings lexicographically by
Unicode code point.  The builtin Lean order on String does not reduce in
the kernel, so we embed the comparison directly as a boolean
lexicographic comparison on the lists of characters, keyed by code
point. -/

/-- Boolean lexicographic comparison of character lists by code point;
this is exactly how Python compares two str values. -/
def leChars : List Char → List Char → Bool
  | [], _ => true
  | _ :: _, [] => false
  | a :: as, b :: bs =>
    if a.toNat < b.toNat then true
    else if b.toNat < a.toNat then false
    else leChars as bs

/-- Python's ordering on str: lexicographic by code point. -/
def pyLe (a b : String) : Prop := leChars a.data b.data = true

instance : DecidableRel pyLe := fun a b => by
  unfold pyLe; infer_instance

theorem leChars_total (a b : List Char) : leChars a b = true ∨ leChars b a = true := by
  induction a generalizing b with
  | nil => left; rfl
  | cons x xs ih =>
    cases b with
    | nil => right; rfl
    | cons y ys =>
      rcases Nat.lt_trichotomy x.toNat y.toNat with h | h | h
      · left; simp [leChars, h]
      · have hne : ¬ x.toNat < y.toNat := by omega
        have hne₂ : ¬ y.toNat < x.toNat := by omega
        rcases ih ys with hc | hc
        · left; simp [leChars, hne, hne₂, hc]
        · right; simp [leChars, hne, hne₂, hc]
      · right; simp [leChars, h]

theorem leChars_trans (a b c : List Char) (hab : leChars a b = true)
    (hbc : leChars b c = true) : leChars a c = true := by
  induction a generalizing b c with
  | nil => rfl
  | cons x xs ih =>
    cases b with
    | nil => simp [leChars] at hab
    | cons y ys =>
      cases c with
      | nil => simp [leChars] at hbc
      | cons z zs =>
        rcases Nat.lt_trichotomy x.toNat z.toNat with h | h | h
        · simp [leChars, h]
        · have hxz : ¬ x.toNat < z.toNat := by omega
          have hzx : ¬ z.toNat < x.toNat := by omega
          simp only [leChars, if_neg hxz, if_neg hzx]
          by_cases hxy : x.toNat < y.toNat
          · by_cases hyz : y.toNat < z.toNat
            · omega
            · have hzy : z.toNat < y.toNat := by omega
              simp [leChars, hyz, hzy] at hbc
          · by_cases hyx : y.toNat < x.toNat
            · simp [leChars, hxy, hyx] at hab
            · have hyz : ¬ y.toNat < z.toNat := by omega
              have hzy : ¬ z.toNat < y.toNat := by omega
              simp only [leChars, if_neg hxy, if_neg hyx] at hab
              simp only [leChars, if_neg hyz, if_neg hzy] at hbc
              exact ih ys zs hab hbc
        · exfalso
          by_cases hxy : x.toNat < y.toNat
          · by_cases hyz : y.toNat < z.toNat
            · omega
            · have hzy : z.toNat < y.toNat := by omega
              simp [leChars, hyz, hzy] at hbc
          · by_cases hyx : y.toNat < x.toNat
            · simp [leChars, hxy, hyx] at hab
            · have hyz : ¬ y.toNat < z.toNat := by omega
              have hzy : z.toNat < y.toNat := by omega
              simp [leChars, hyz, hzy] at hbc

theorem leChars_antisymm (a b : List Char) (hab : leChars a b = true)
    (hba : leChars b a = true) : a = b := by
  induction a generalizing b with
  | nil =>
    cases b with
    | nil => rfl
    | cons y ys => simp [leChars] at hba
  | cons x xs ih =>
    cases b with
    | nil => simp [leChars] at hab
    | cons y ys =>
      by_cases hxy : x.toNat < y.toNat
      · have hyx : ¬ y.toNat < x.toNat := by omega
        simp [leChars, hxy, hyx] at hba
      · by_cases hyx : y.toNat < x.toNat
        · simp [leChars, hxy, hyx] at hab
        · have hx : x = y := by
            have hn : x.toNat = y.toNat := by omega
            apply Char.ext
            apply UInt32.ext
            simpa [Char.toNat, UInt32.toNat] using hn
          subst hx
          simp only [leChars, if_neg hxy] at hab hba
          exact congrArg (x :: ·) (ih ys hab hba)

instance : IsTotal String pyLe :=
  ⟨fun a b => leChars_total a.data b.data⟩

instance : IsTrans String pyLe :=
  ⟨fun a b c => leChars_trans a.data b.data c.data⟩

instance : IsAntisymm String pyLe :=
  ⟨fun a b hab hba => String.ext (leChars_antisymm a.data b.data hab hba)⟩

/-- Python's sorted builtin on a list of strings: the lexicographically
sorted permutation.  Python uses a stable mergesort; on strings any
correct sort produces the same list, because equal strings are
identical, so we model it with insertion sort, which the kernel can
evaluate. -/
def pySorted (l : List String) : List String := List.insertionSort pyLe l

theorem pySorted_sorted (l : List String) : List.Sorted pyLe (pySorted l) :=
  List.sorted_insertionSort pyLe l

theorem pySorted_perm (l : List String) : (pySorted l).Perm l :=
  List.perm_insertionSort pyLe l

theorem pySorted_eq_of_perm (l₁ l₂ : List String) (h : l₁.Perm l₂) :
    pySorted l₁ = pySorted l₂ :=
  List.eq_of_perm_of_sorted
    ((pySorted_perm l₁).trans (h.trans (pySorted_perm l₂).symm))
    (pySorted_sorted l₁) (pySorted_sorted l₂)

/-! ## Directory Snapshotter (list_project_structure_sync)

A directory tree is embedded as the inductive FS.  A directory node
carries its name, a flag saying whether os.listdir succeeds on it
(false models a PermissionError, which get_files_recursive swallows,
returning the entries collected so far — nothing, since the try wraps
the whole loop), and its contents as a nil/cons chain of sibling
entries, so that a single structural induction covers both trees and
sibling lists.  An entry that is neither a file nor a directory
(os.path.isfile and os.path.isdir both false, e.g. a broken symlink)
is FS.other; the source appends nothing for it.  os.path.relpath of a
descendant of the project root is the slash-joined chain of names from
the root, which is how relOf renders it. -/

inductive FS where
  | file : String → FS
  | other : String → FS
  | dir : String → Bool → FS → FS
  | nil : FS
  | cons : FS → FS → FS
deriving DecidableEq, Repr

/-- The hidden-entry test of the source: item.startswith('.'), i.e.
the name's first character is the hidden-file marker. -/
def hiddenName (n : String) : Bool :=
  match n.data with
  | [] => false
  | c :: _ => c = '.'

/-- Relative path of an entry named n reached through the directories
named in pre: os.path.relpath(os.path.join(path, item), project_path). -/
def relOf (pre : List String) (n : String) : String :=
  String.intercalate "/" (pre ++ [n])

/-- The body of get_files_recursive: walk the entries of one directory,
skipping hidden names, emitting files bare and directories with a
trailing slash followed by their recursive contents (nothing when
os.listdir on the subdirectory raises PermissionError). -/
def walk (pre : List String) : FS → List String
  | .file n => if hiddenName n then [] else [relOf pre n]
  | .other _ => []
  | .dir n listable sub =>
    if hiddenName n then []
    else (relOf pre n ++ "/") ::
      (if listable then walk (pre ++ [n]) sub else [])
  | .nil => []
  | .cons e rest => walk pre e ++ walk pre rest

/-- list_project_structure_sync: sorted(get_files_recursive(project_path)).
rootListable is false when os.listdir raises PermissionError on the
project root itself, in which case the swallowed exception leaves the
accumulator empty. -/
def list_project_structure_sync (rootListable : Bool) (root : FS) : List String :=
  pySorted (if rootListable then walk [] root else [])

/-- Two trees that present the same directory structure up to the
enumeration order of each directory's entries: the closure of swapping
adjacent siblings, congruence, and transitivity.  This is how an
underlying-filesystem enumeration-order change is embedded. -/
inductive FSEquiv : FS → FS → Prop where
  | refl (t : FS) : FSEquiv t t
  | dirCongr (n : String) (listable : Bool) (c₁ c₂ : FS) :
      FSEquiv c₁ c₂ → FSEquiv (.dir n listable c₁) (.dir n listable c₂)
  | consCongr (e₁ e₂ r₁ r₂ : FS) :
      FSEquiv e₁ e₂ → FSEquiv r₁ r₂ → FSEquiv (.cons e₁ r₁) (.cons e₂ r₂)
  | swap (e₁ e₂ r : FS) :
      FSEquiv (.cons e₁ (.cons e₂ r)) (.cons e₂ (.cons e₁ r))
  | trans (t₁ t₂ t₃ : FS) : FSEquiv t₁ t₂ → FSEquiv t₂ t₃ → FSEquiv t₁ t₃

theorem walk_perm_of_equiv {t₁ t₂ : FS} (h : FSEquiv t₁ t₂) :
    ∀ pre, (walk pre t₁).Perm (walk pre t₂) := by
  induction h with
  | refl t => exact fun pre => List.Perm.refl _
  | dirCongr n listable c₁ c₂ hc ih =>
    intro pre
    by_cases hn : hiddenName n
    · simp [walk, hn]
    · cases listable with
      | false => simp [walk, hn]
      | true => simpa [walk, hn] using (ih (pre ++ [n])).cons (relOf pre n ++ "/")
  | consCongr e₁ e₂ r₁ r₂ he hr ihe ihr =>
    intro pre
    exact (ihe pre).append (ihr pre)
  | swap e₁ e₂ r =>
    intro pre
    show (walk pre e₁ ++ (walk pre e₂ ++ walk pre r)).Perm
      (walk pre e₂ ++ (walk pre e₁ ++ walk pre r))
    rw [← List.append_assoc, ← List.append_assoc]
    exact (List.perm_append_comm).append_right _
  | trans t₁ t₂ t₃ h₁ h₂ ih₁ ih₂ =>
    intro pre
    exact (ih₁ pre).trans (ih₂ pre)

/-- Relative paths of the visible directories of a tree: the relative
path of every non-hidden directory entry, recursing into a directory
only when it is listable.  Written from the specification's reading of
the output ("every directory entry rendered as its relative path plus a
trailing separator marker"), to be compared with walk. -/
def dirPaths (pre : List String) : FS → List String
  | .file _ => []
  | .other _ => []
  | .dir n listable sub =>
    if hiddenName n then []
    else relOf pre n :: (if listable then dirPaths (pre ++ [n]) sub else [])
  | .nil => []
  | .cons e rest => dirPaths pre e ++ dirPaths pre rest

/-- Relative paths of the visible files of a tree, the specification's
"every file entry rendered as its bare relative path". -/
def filePaths (pre : List String) : FS → List String
  | .file n => if hiddenName n then [] else [relOf pre n]
  | .other _ => []
  | .dir n listable sub =>
    if hiddenName n then []
    else if listable then filePaths (pre ++ [n]) sub else []
  | .nil => []
  | .cons e rest => filePaths pre e ++ filePaths pre rest

theorem walk_perm_split (t : FS) :
    ∀ pre, (walk pre t).Perm
      ((dirPaths pre t).map (fun d => d ++ "/") ++ filePaths pre t) := by
  induction t with
  | file n =>
    intro pre
    by_cases hn : hiddenName n <;> simp [walk, dirPaths, filePaths, hn]
  | other n => intro pre; simp [walk, dirPaths, filePaths]
  | dir n listable sub ih =>
    intro pre
    by_cases hn : hiddenName n
    · simp [walk, dirPaths, filePaths, hn]
    · cases listable with
      | false => simp [walk, dirPaths, filePaths, hn]
      | true =>
        simpa [walk, dirPaths, filePaths, hn] using (ih (pre ++ [n])).cons (relOf pre n ++ "/")
  | nil => intro pre; simp [walk, dirPaths, filePaths]
  | cons e rest ihe ihr =>
    intro pre
    simp only [walk, dirPaths, filePaths, List.map_append]
    refine ((ihe pre).append (ihr pre)).trans ?_
    rw [List.append_assoc, List.append_assoc]
    exact List.Perm.append_left _ (List.perm_append_comm_assoc _ _ _)

/-! ## Tool-Protocol Client (MCPFilesystemClient)

The client's only mutable state is self.process: None before
start_server, afterwards a handle to a process that is either still
running or has exited (process.returncode is not None).  close never
reassigns self.process, so the handle survives a close; what changes is
the underlying process status. -/

/-- Status of the child process handle held in self.process. -/
inductive ProcHandle where
  | running
  | exited
deriving DecidableEq, Repr

/-- A signal delivered to the worker process. -/
inductive Signal where
  | term
  | kill
deriving DecidableEq, Repr

/-- MCPFilesystemClient.close.  Input: the current self.process and
whether the process exits within the 5 time-unit grace wait after
SIGTERM.  Output: the process state after the call and the signals that
actually reach the worker.  process.terminate() on a process that has
already exited delivers nothing: subprocess.Popen.send_signal polls and
skips signalling a process it knows has died, and process.wait() on an
exited process returns immediately, so no branch of close raises. -/
def close (process : Option ProcHandle) (exitsInGrace : Bool) :
    Option ProcHandle × List Signal :=
  match process with
  | none => (none, [])
  | some .exited => (some .exited, [])
  | some .running =>
    if exitsInGrace then (some .exited, [Signal.term])
    else (some .exited, [Signal.term, Signal.kill])

/-- A client on which send_request and call_tool refuse to run: the
source's guard "not self.process or self.process.returncode is not
None".  This is the Closed/NotStarted side of the spec's state
machine. -/
def notRunning (process : Option ProcHandle) : Prop :=
  process = none ∨ process = some ProcHandle.exited

instance (process : Option ProcHandle) : Decidable (notRunning process) := by
  unfold notRunning; infer_instance

/-- JSON-ish parameter values, enough to carry the envelopes the source
builds (strings and nested objects). -/
inductive ParamVal where
  | str : String → ParamVal
  | obj : List (String × ParamVal) → ParamVal
deriving Repr

/-- The params mapping of a request envelope. -/
abbrev Params := List (String × ParamVal)

/-- The request envelope built by send_request:
jsonrpc "2.0", the fixed id 1, the method name, and params or {}. -/
structure JsonRpcRequest where
  jsonrpc : String
  id : Nat
  method : String
  params : Params

/-- The envelope send_request builds for a call: the literal dict
written as one JSON line.  None params become the empty mapping
(params or \x7b\x7d). -/
def mkRequest (method : String) (params? : Option Params) : JsonRpcRequest :=
  { jsonrpc := "2.0", id := 1, method := method, params := params?.getD [] }

/-- A content block of a read_file tool result; only its "text" field is
ever read (block.get("text", "")), none models an absent field. -/
structure ContentBlock where
  text : Option String
deriving DecidableEq, Repr

/-- A Python value sitting under the "content" key of a tool result:
either a string or a list of content blocks.  (The source inspects it
with truthiness, isinstance(..., list) and len.) -/
inductive PyVal where
  | pstr : String → PyVal
  | plist : List ContentBlock → PyVal
deriving DecidableEq, Repr

/-- The result payload of a successful envelope, as consumed by
get_project_guidelines: a mapping whose "content" key may be absent. -/
structure ToolResult where
  content : Option PyVal
deriving DecidableEq, Repr

/-- A response envelope that parsed as JSON: an optional "error" field
(its value rendered to the string interpolated into the message) and an
optional "result" field. -/
structure RpcResponse where
  errorField : Option String
  resultField : Option ToolResult

/-- What the single bounded readline of send_request yields: the
15 time-unit wait elapses with no line (asyncio.TimeoutError); the
worker's stdout reaches end-of-file so readline returns an empty
byte-string; a line arrives that json.loads rejects (carrying the
decode-error text); or a line arrives that parses to an envelope. -/
inductive ReadResult where
  | timeout
  | eof
  | invalidJson : String → ReadResult
  | parsed : RpcResponse → ReadResult

/-- The distinct failure exits of send_request, one per raise site of
the source.  All of them are RuntimeError in Python; they are told apart
by their message, given by sendErrMsg. -/
inductive SendErr where
  | notRunningErr
  | timedOut
  | noResponse
  | badJson : String → SendErr
  | serverError : String → SendErr
deriving DecidableEq

/-- The message of each RuntimeError raised by send_request. -/
def sendErrMsg : SendErr → String
  | .notRunningErr => "MCP server is not running"
  | .timedOut => "MCP server request timed out"
  | .noResponse => "No response from MCP server"
  | .badJson e => "Invalid JSON response from MCP server: " ++ e
  | .serverError e => "MCP server error: " ++ e

/-- The spec's ProtocolError groups the two envelope-level failures:
a line that is not valid JSON, and an envelope carrying an error
field. -/
def isProtocolErr : SendErr → Prop
  | .badJson _ => True
  | .serverError _ => True
  | _ => False

instance (e : SendErr) : Decidable (isProtocolErr e) := by
  cases e <;> (unfold isProtocolErr; infer_instance)

/-- MCPFilesystemClient.send_request.  Guard first: with no process or
an exited one it raises "MCP server is not running" and writes nothing.
Otherwise the envelope goes out and the single bounded readline decides
the outcome: timeout, empty read, undecodable line, error-carrying
envelope, or the result payload (empty mapping when the "result" field
is absent).  The second component is the list of request envelopes
written to the worker's stdin. -/
def send_request (process : Option ProcHandle) (method : String)
    (params? : Option Params) (rd : ReadResult) :
    Except SendErr ToolResult × List JsonRpcRequest :=
  if notRunning process then (Except.error SendErr.notRunningErr, [])
  else
    (match rd with
     | .timeout => Except.error SendErr.timedOut
     | .eof => Except.error SendErr.noResponse
     | .invalidJson e => Except.error (SendErr.badJson e)
     | .parsed resp =>
       match resp.errorField with
       | some e => Except.error (SendErr.serverError e)
       | none => Except.ok (resp.resultField.getD ⟨none⟩),
     [mkRequest method params?])

/-- One send_request invocation of a run: the state the client is in,
the envelope requested, and what the worker's stream does. -/
structure CallSpec where
  process : Option ProcHandle
  method : String
  params? : Option Params
  rd : ReadResult

/-- All request envelopes a sequence of send_request calls writes to the
worker (initialize and every tools/call alike). -/
def runRequests (calls : List CallSpec) : List JsonRpcRequest :=
  (calls.map (fun c => (send_request c.process c.method c.params? c.rd).2)).flatten

/-! ## Policy Resolver (get_project_guidelines) -/

/-- The two candidate locations of policy.txt: at the project root
(os.path.join(project_path, "policy.txt")) and one directory level
above it (os.path.join(os.path.dirname(project_path), "policy.txt")). -/
inductive ReadLoc where
  | root
  | parent
deriving DecidableEq, Repr

/-- The one failure of the resolver, the source's
FileNotFoundError("policy.txt not found and no policy content
provided"). -/
inductive PolicyErr where
  | notFound
deriving DecidableEq, Repr

/-- Message of the resolver's FileNotFoundError. -/
def policyErrMsg : PolicyErr → String
  | .notFound => "policy.txt not found and no policy content provided"

/-- Extraction of text from one successful read_file result:
content = result.get("content", []); a non-empty list yields
content[0].get("text", ""); every other shape falls to
str(result.get("content", "")) — the empty string when the key is
absent, "[]" for an empty list (str of the empty Python list), the
string itself otherwise. -/
def extractText (r : ToolResult) : String :=
  match r.content with
  | some (.plist (b :: _)) => b.text.getD ""
  | some (.plist []) => "[]"
  | some (.pstr s) => s
  | none => ""

/-- ASCII whitespace, the characters str.strip removes (the exotic
Unicode space characters Python also strips are not modelled). -/
def isPySpace (c : Char) : Bool :=
  c = ' ' || c = '\t' || c = '\n' || c = '\r' || c = '\x0b' || c = '\x0c'

/-- Python's str.strip(): leading and trailing whitespace removed. -/
def pyStrip (s : String) : String :=
  ⟨((s.data.dropWhile isPySpace).reverse.dropWhile isPySpace).reverse⟩

/-- get_project_guidelines.  The client's two call_tool reads are
embedded by their outcomes (a raised exception, any alien, is swallowed;
a returned payload is kept).  First component: the returned text or the
FileNotFoundError.  Second component: which candidate locations were
actually read, in order.  The supplied-text guard is the source's
"if policy_content and policy_content.strip()". -/
def get_project_guidelines (policy_content : Option String)
    (rootRead parentRead : Except Unit ToolResult) :
    Except PolicyErr String × List ReadLoc :=
  match policy_content with
  | some pc =>
    if pc ≠ "" ∧ pyStrip pc ≠ "" then (Except.ok pc, [])
    else policyFallback rootRead parentRead
  | none => policyFallback rootRead parentRead
where
  policyFallback (rootRead parentRead : Except Unit ToolResult) :
      Except PolicyErr String × List ReadLoc :=
    match rootRead with
    | .ok r => (Except.ok (extractText r), [ReadLoc.root])
    | .error _ =>
      match parentRead with
      | .ok r => (Except.ok (extractText r), [ReadLoc.root, ReadLoc.parent])
      | .error _ =>
        (Except.error PolicyErr.notFound, [ReadLoc.root, ReadLoc.parent])

/-! ## Validation Orchestrator (run_validation_async) -/

/-- The dict run_validation_async returns: either
\x7b"success": True, "policy": ..., "project_files": ..., "report": ...\x7d
or \x7b"success": False, "error": str(e)\x7d. -/
inductive ValidationResult where
  | success (policy : String) (project_files : List String) (report : String)
  | failure (error : String)
deriving DecidableEq, Repr

/-- Observable actions of one orchestrator run: a chat-completion
network call to a model provider, and the finally-block close of the
client. -/
inductive Action where
  | llmCall : String → Action
  | closeClient : Action
deriving DecidableEq, Repr

/-- The literal params of the initialize handshake sent by
MCPFilesystemClient.initialize. -/
def initParams : Params :=
  [("protocolVersion", ParamVal.str "2024-11-05"),
   ("capabilities", ParamVal.obj [("tools", ParamVal.obj [])]),
   ("clientInfo", ParamVal.obj
     [("name", ParamVal.str "project-validator"),
      ("version", ParamVal.str "1.0.0")])]

/-- The failure outcome of send_request does not depend on the params
of the envelope, only on the client state and the read outcome. -/
theorem send_request_fst_params (process : Option ProcHandle) (method : String)
    (ps₁ ps₂ : Option Params) (rd : ReadResult) :
    (send_request process method ps₁ rd).1 = (send_request process method ps₂ rd).1 := by
  unfold send_request
  by_cases h : notRunning process <;> simp [h]

/-- One call_tool("read_file", ...) round trip as get_project_guidelines
sees it: the payload on success, a swallowed exception otherwise.  After
a successful start and initialize the client is running, and by
send_request_fst_params the outcome does not depend on the request's
arguments, so the path built with os.path.join/os.path.dirname is not
reconstructed here. -/
def callToolRead (rd : ReadResult) : Except Unit ToolResult :=
  match (send_request (some ProcHandle.running) "tools/call" none rd).1 with
  | .ok r => Except.ok r
  | .error _ => Except.error ()

/-- The environment a validation run executes against: whether
start_server raises (and with what message), what the worker's stream
does on the initialize round trip and on each of the two policy reads,
the directory tree with the listability of the project root, and how
the provider's chat-completion call ends (report text or raised
message). -/
structure Env where
  startErr : Option String
  initRd : ReadResult
  rootRd : ReadResult
  parentRd : ReadResult
  rootListable : Bool
  tree : FS
  llm : Except String String

/-- The try block of run_validation_async: start_server, initialize,
get_project_guidelines, list_project_structure_sync and the provider
dispatch in sequence, stopping at the first raised exception (carried as
the error's str).  The second component records the chat-completion
requests issued; an llmCall action appears exactly when such a network
request is made (also when that request itself raises). -/
def runBody (llm_provider : String) (policy_content : Option String) (env : Env) :
    Except String (String × List String × String) × List Action :=
  match env.startErr with
  | some m => (Except.error m, [])
  | none =>
    match (send_request (some ProcHandle.running) "initialize"
        (some initParams) env.initRd).1 with
    | .error e => (Except.error (sendErrMsg e), [])
    | .ok _ =>
      match (get_project_guidelines policy_content
          (callToolRead env.rootRd) (callToolRead env.parentRd)).1 with
      | .error pe => (Except.error (policyErrMsg pe), [])
      | .ok policy =>
        let project_files := list_project_structure_sync env.rootListable env.tree
        if llm_provider = "OpenAI" then
          match env.llm with
          | .ok report =>
            (Except.ok (policy, project_files, report), [Action.llmCall "OpenAI"])
          | .error m => (Except.error m, [Action.llmCall "OpenAI"])
        else if llm_provider = "Anthropic" then
          match env.llm with
          | .ok report =>
            (Except.ok (policy, project_files, report), [Action.llmCall "Anthropic"])
          | .error m => (Except.error m, [Action.llmCall "Anthropic"])
        else
          (Except.error ("Unsupported LLM provider: " ++ llm_provider), [])

/-- run_validation_async: the try-body above, an except-clause that
turns the first raised exception's message into a failure dict, and a
finally-clause that closes the client on every path, the success path
included. -/
def run_validation_async (project_path llm_provider model api_key : String)
    (policy_content : Option String) (env : Env) :
    ValidationResult × List Action :=
  let body := runBody llm_provider policy_content env
  (match body.1 with
   | .ok (policy, files, report) => ValidationResult.success policy files report
   | .error m => ValidationResult.failure m,
   body.2 ++ [Action.closeClient])

/-! ## Claim theorems -/

/-- C3: close transitions any client state (NotStarted, Running or
Closed) to a closed state, and a second close after a first one is a
no-op: it leaves the state unchanged, delivers no further terminate or
kill signal to the worker, and (close being total) raises nothing. -/
theorem close_twice_noop (process : Option ProcHandle) (g₁ g₂ : Bool) :
    notRunning (close process g₁).1 ∧
    close (close process g₁).1 g₂ = ((close process g₁).1, []) := by
  cases process with
  | none => simp [close, notRunning]
  | some h => cases h <;> cases g₁ <;> simp [close, notRunning]

theorem send_request_snd_fixed (process : Option ProcHandle) (method : String)
    (params? : Option Params) (rd : ReadResult) :
    ∀ req ∈ (send_request process method params? rd).2,
      req.jsonrpc = "2.0" ∧ req.id = 1 := by
  unfold send_request
  by_cases h : notRunning process
  · simp [h]
  · cases rd with
    | timeout => simp [h, mkRequest]
    | eof => simp [h, mkRequest]
    | invalidJson e => simp [h, mkRequest]
    | parsed resp =>
      cases hr : resp.errorField <;> simp [h, hr, mkRequest]

/-- C10: every request envelope written across a whole run of
send_request calls (the initialize handshake and every tool call alike)
carries the protocol tag "2.0" and the fixed numeric id 1; in
particular any two envelopes of the run share the same id — the id is
never incremented. -/
theorem run_requests_fixed_id (calls : List CallSpec) :
    ∀ req ∈ runRequests calls,
      req.jsonrpc = "2.0" ∧ req.id = 1 ∧
      ∀ req₂ ∈ runRequests calls, req.id = req₂.id := by
  have hbase : ∀ req ∈ runRequests calls, req.jsonrpc = "2.0" ∧ req.id = 1 := by
    intro req hreq
    unfold runRequests at hreq
    rcases List.mem_flatten.mp hreq with ⟨l, hl, hreql⟩
    rcases List.mem_map.mp hl with ⟨c, hc, rfl⟩
    exact send_request_snd_fixed c.process c.method c.params? c.rd req hreql
  intro req hreq
  refine ⟨(hbase req hreq).1, (hbase req hreq).2, ?_⟩
  intro req₂ hreq₂
  rw [(hbase req hreq).2, (hbase req₂ hreq₂).2]

/-- Witness for C10: a run of an initialize call followed by a tool
call writes two envelopes, and the theorem yields tag "2.0" and id 1
for the first of them. -/
theorem run_requests_fixed_id_witness :
    (mkRequest "initialize" (some initParams)).jsonrpc = "2.0" ∧
    (mkRequest "initialize" (some initParams)).id = 1 := by
  have h := run_requests_fixed_id
    [⟨some ProcHandle.running, "initialize", some initParams, ReadResult.timeout⟩,
     ⟨some ProcHandle.running, "tools/call", none, ReadResult.eof⟩]
    (mkRequest "initialize" (some initParams))
    (by simp [runRequests, send_request, notRunning])
  exact ⟨h.1, h.2.1⟩

theorem runBody_trace_llm (llm_provider : String) (policy_content : Option String)
    (env : Env) :
    ∀ x ∈ (runBody llm_provider policy_content env).2, ∃ p, x = Action.llmCall p := by
  unfold runBody
  split
  · simp
  · split
    · simp
    · split
      · simp
      · split_ifs
        · split <;> simp
        · split <;> simp
        · simp

/-- C4: on every exit path of a validation run — the success path and
every path where start, initialize, policy resolution, snapshot or the
model call fails — the orchestrator closes the client it created
exactly once. -/
theorem run_validation_close_once (project_path llm_provider model api_key : String)
    (policy_content : Option String) (env : Env) :
    ((run_validation_async project_path llm_provider model api_key
        policy_content env).2).count Action.closeClient = 1 := by
  have h := runBody_trace_llm llm_provider policy_content env
  unfold run_validation_async
  simp only [List.count_append]
  have hz : (runBody llm_provider policy_content env).2.count Action.closeClient = 0 := by
    rw [List.count_eq_zero]
    intro hmem
    rcases h _ hmem with ⟨p, hp⟩
    simp at hp
  rw [hz]
  rfl

/-- C9: with any provider name other than the two supported variants,
the run ends with success false; no chat-completion network call is ever
issued; and when the pipeline reaches the dispatch (start, initialize
and policy resolution succeeded), the error is the
"Unsupported LLM provider" message, which mentions the provider name. -/
theorem unsupported_provider (project_path llm_provider model api_key : String)
    (policy_content : Option String) (env : Env)
    (h₁ : llm_provider ≠ "OpenAI") (h₂ : llm_provider ≠ "Anthropic") :
    (∃ m, (run_validation_async project_path llm_provider model api_key
        policy_content env).1 = ValidationResult.failure m) ∧
    (∀ p, Action.llmCall p ∉ (run_validation_async project_path llm_provider model
        api_key policy_content env).2) ∧
    (env.startErr = none →
     (∃ r, (send_request (some ProcHandle.running) "initialize" (some initParams)
        env.initRd).1 = Except.ok r) →
     (∃ s, (get_project_guidelines policy_content (callToolRead env.rootRd)
        (callToolRead env.parentRd)).1 = Except.ok s) →
     (run_validation_async project_path llm_provider model api_key
        policy_content env).1 =
       ValidationResult.failure ("Unsupported LLM provider: " ++ llm_provider) ∧
     ∃ a b, "Unsupported LLM provider: " ++ llm_provider = a ++ llm_provider ++ b) := by
  refine ⟨?_, ?_, ?_⟩
  · unfold run_validation_async runBody
    split
    · simp
    · split
      · simp
      · split
        · simp
        · simp only [if_neg h₁, if_neg h₂]
          simp
  · intro p
    unfold run_validation_async runBody
    split
    · simp
    · split
      · simp
      · split
        · simp
        · simp only [if_neg h₁, if_neg h₂]
          simp
  · intro hstart ⟨r, hinit⟩ ⟨s, hpol⟩
    unfold run_validation_async runBody
    rw [hstart, hinit, hpol]
    simp only [if_neg h₁, if_neg h₂]
    exact ⟨by simp, "Unsupported LLM provider: ", "", by simp⟩

/-- Witness for C9: provider "Gemini" with every other step succeeding
ends in the unsupported-provider failure. -/
theorem unsupported_provider_witness :
    (run_validation_async "/proj" "Gemini" "m1" "k1" none
      { startErr := none,
        initRd := ReadResult.parsed ⟨none, some ⟨none⟩⟩,
        rootRd := ReadResult.parsed ⟨none, some ⟨some (PyVal.plist [⟨some "policy"⟩])⟩⟩,
        parentRd := ReadResult.timeout,
        rootListable := true,
        tree := FS.nil,
        llm := Except.ok "report" }).1 =
      ValidationResult.failure "Unsupported LLM provider: Gemini" :=
  ((unsupported_provider "/proj" "Gemini" "m1" "k1" none
    { startErr := none,
      initRd := ReadResult.parsed ⟨none, some ⟨none⟩⟩,
      rootRd := ReadResult.parsed ⟨none, some ⟨some (PyVal.plist [⟨some "policy"⟩])⟩⟩,
      parentRd := ReadResult.timeout,
      rootListable := true,
      tree := FS.nil,
      llm := Except.ok "report" }
    (by decide) (by decide)).2.2 rfl ⟨⟨none⟩, rfl⟩ ⟨"policy", rfl⟩).1

/-- C5: the resolver's order.  (1) A caller-supplied text that is
non-empty after trimming is returned verbatim (untrimmed) with no tool
read attempted.  Otherwise the root policy.txt read is attempted first:
its success short-circuits; its failure is swallowed and the
parent-directory read is attempted; only when both fail does the
resolver raise FileNotFoundError. -/
theorem policy_resolution_order (pc? : Option String)
    (rootRead parentRead : Except Unit ToolResult) :
    (∀ s, pc? = some s → pyStrip s ≠ "" →
      get_project_guidelines pc? rootRead parentRead = (Except.ok s, [])) ∧
    ((∀ s, pc? = some s → pyStrip s = "") →
      (∀ r, rootRead = Except.ok r →
        get_project_guidelines pc? rootRead parentRead =
          (Except.ok (extractText r), [ReadLoc.root])) ∧
      (rootRead = Except.error () →
        (∀ r, parentRead = Except.ok r →
          get_project_guidelines pc? rootRead parentRead =
            (Except.ok (extractText r), [ReadLoc.root, ReadLoc.parent])) ∧
        (parentRead = Except.error () →
          get_project_guidelines pc? rootRead parentRead =
            (Except.error PolicyErr.notFound, [ReadLoc.root, ReadLoc.parent])))) := by
  constructor
  · rintro s rfl htrim
    have hne : s ≠ "" := by
      intro h
      subst h
      exact htrim rfl
    simp [get_project_guidelines, hne, htrim]
  · intro hblank
    have hfall : get_project_guidelines pc? rootRead parentRead =
        get_project_guidelines.policyFallback rootRead parentRead := by
      cases pc? with
      | none => rfl
      | some s =>
        have hs : pyStrip s = "" := hblank s rfl
        simp [get_project_guidelines, hs]
    refine ⟨?_, ?_⟩
    · rintro r rfl
      rw [hfall]
      rfl
    · rintro rfl
      refine ⟨?_, ?_⟩
      · rintro r rfl
        rw [hfall]
        rfl
      · rintro rfl
        rw [hfall]
        rfl

/-- Witness for C5: a blank-free supplied text is returned verbatim
with no read attempted, and with no supplied text a successful root
read is returned after exactly one read. -/
theorem policy_resolution_order_witness :
    get_project_guidelines (some " P ") (Except.error ()) (Except.error ()) =
      (Except.ok " P ", []) ∧
    get_project_guidelines none
      (Except.ok ⟨some (PyVal.plist [⟨some "T"⟩])⟩) (Except.error ()) =
      (Except.ok "T", [ReadLoc.root]) := by
  constructor
  · exact (policy_resolution_order (some " P ") (Except.error ()) (Except.error ())).1
      " P " rfl (by decide)
  · have h := ((policy_resolution_order none
      (Except.ok ⟨some (PyVal.plist [⟨some "T"⟩])⟩) (Except.error ())).2
      (by intro s hs; cases hs)).1 ⟨some (PyVal.plist [⟨some "T"⟩])⟩ rfl
    simpa [extractText] using h

/-- Counterexample for C6: with no supplied text, a successful root
read whose result mapping has no "content" key makes
get_project_guidelines return the empty string rather than a non-empty
text or a FileNotFoundError. -/
theorem guidelines_empty_counterexample :
    (get_project_guidelines none (Except.ok ⟨none⟩) (Except.error ())).1 =
      Except.ok "" := rfl

/-- C6 amended: the resolver either returns a policy text or fails with
the FileNotFoundError; a caller-supplied text that is used is always
non-empty; but the returned text can be empty, and only when a tool
read succeeded and text extraction from its result came up empty. -/
theorem guidelines_total (pc? : Option String)
    (rootRead parentRead : Except Unit ToolResult) :
    ((∃ s, (get_project_guidelines pc? rootRead parentRead).1 = Except.ok s) ∨
      (get_project_guidelines pc? rootRead parentRead).1 =
        Except.error PolicyErr.notFound) ∧
    (∀ s, pc? = some s → pyStrip s ≠ "" →
      (get_project_guidelines pc? rootRead parentRead).1 = Except.ok s ∧ s ≠ "") ∧
    (∀ s, (get_project_guidelines pc? rootRead parentRead).1 = Except.ok s →
      s = "" →
      ∃ r, (rootRead = Except.ok r ∨
        (rootRead = Except.error () ∧ parentRead = Except.ok r)) ∧
        extractText r = "") := by
  refine ⟨?_, ?_, ?_⟩
  · unfold get_project_guidelines get_project_guidelines.policyFallback
    rcases pc? with _ | s
    · cases rootRead <;> cases parentRead <;> simp
    · by_cases hs : s ≠ "" ∧ pyStrip s ≠ ""
      · simp [hs]
      · cases rootRead <;> cases parentRead <;> simp [hs]
  · rintro s rfl htrim
    have hne : s ≠ "" := by
      intro h
      subst h
      exact htrim rfl
    refine ⟨?_, hne⟩
    simp [get_project_guidelines, hne, htrim]
  · intro s hok hempty
    subst hempty
    unfold get_project_guidelines get_project_guidelines.policyFallback at hok
    rcases pc? with _ | t
    · cases hroot : rootRead with
      | ok r =>
        rw [hroot] at hok
        simp at hok
        exact ⟨r, Or.inl rfl, hok⟩
      | error u =>
        rw [hroot] at hok
        cases hpar : parentRead with
        | ok r =>
          rw [hpar] at hok
          simp at hok
          exact ⟨r, Or.inr ⟨by cases u; rfl, rfl⟩, hok⟩
        | error v =>
          rw [hpar] at hok
          simp at hok
    · by_cases ht : t ≠ "" ∧ pyStrip t ≠ ""
      · simp [ht] at hok
      · simp only [if_neg ht] at hok
        cases hroot : rootRead with
        | ok r =>
          rw [hroot] at hok
          simp at hok
          exact ⟨r, Or.inl rfl, hok⟩
        | error u =>
          rw [hroot] at hok
          cases hpar : parentRead with
          | ok r =>
            rw [hpar] at hok
            simp at hok
            exact ⟨r, Or.inr ⟨by cases u; rfl, rfl⟩, hok⟩
          | error v =>
            rw [hpar] at hok
            simp at hok

/-- Witness for C6's amended statement: a usable supplied text comes
back verbatim and non-empty. -/
theorem guidelines_total_witness :
    (get_project_guidelines (some "keep") (Except.error ()) (Except.error ())).1 =
      Except.ok "keep" ∧ ("keep" : String) ≠ "" :=
  (guidelines_total (some "keep") (Except.error ()) (Except.error ())).2.1
    "keep" rfl (by decide)

/-- Counterexample for C2: when the worker's output stream ends before
any line arrives (readline returns an empty byte-string within the
bound), no newline-terminated response line has arrived within the 15
time units, yet send_request fails with the distinct "No response from
MCP server" error — not with the timeout error the claim's case
analysis requires (nor a protocol or not-running error, nor a result
payload). -/
theorem send_request_eof_counterexample :
    (send_request (some ProcHandle.running) "tools/call" none ReadResult.eof).1 =
      Except.error SendErr.noResponse ∧
    SendErr.noResponse ≠ SendErr.timedOut ∧
    ¬ isProtocolErr SendErr.noResponse ∧
    SendErr.noResponse ≠ SendErr.notRunningErr := by
  refine ⟨rfl, by decide, by decide, by decide⟩

/-- C2 amended: send_request fails with the not-running error if
invoked before start or after the worker has exited; with the timeout
error if the 15-unit bounded wait elapses; with the distinct no-response
error if the worker's stream ends (an empty read) before a line
arrives; with a protocol error if the line is not valid JSON or the
envelope carries an error field; otherwise it returns the result
payload, or the empty mapping if the result field is absent.  After a
timeout the client state is unchanged (send_request never reassigns
self.process) and close still succeeds, leaving a closed client. -/
theorem send_request_cases (process : Option ProcHandle) (method : String)
    (params? : Option Params) (rd : ReadResult) :
    (notRunning process →
      (send_request process method params? rd).1 =
        Except.error SendErr.notRunningErr) ∧
    (¬ notRunning process →
      (rd = ReadResult.timeout →
        (send_request process method params? rd).1 = Except.error SendErr.timedOut ∧
        ∀ g, notRunning (close process g).1) ∧
      (rd = ReadResult.eof →
        (send_request process method params? rd).1 = Except.error SendErr.noResponse) ∧
      (∀ e, rd = ReadResult.invalidJson e →
        (send_request process method params? rd).1 = Except.error (SendErr.badJson e) ∧
        isProtocolErr (SendErr.badJson e)) ∧
      (∀ resp e, rd = ReadResult.parsed resp → resp.errorField = some e →
        (send_request process method params? rd).1 =
          Except.error (SendErr.serverError e) ∧
        isProtocolErr (SendErr.serverError e)) ∧
      (∀ resp, rd = ReadResult.parsed resp → resp.errorField = none →
        (send_request process method params? rd).1 =
          Except.ok (resp.resultField.getD ⟨none⟩))) := by
  constructor
  · intro h
    simp [send_request, h]
  · intro h
    refine ⟨?_, ?_, ?_, ?_, ?_⟩
    · rintro rfl
      refine ⟨by simp [send_request, h], ?_⟩
      intro g
      cases process with
      | none => simp [close, notRunning]
      | some ph => cases ph <;> cases g <;> simp [close, notRunning]
    · rintro rfl
      simp [send_request, h]
    · rintro e rfl
      exact ⟨by simp [send_request, h], trivial⟩
    · rintro resp e rfl herr
      exact ⟨by simp [send_request, h, herr], trivial⟩
    · rintro resp rfl herr
      simp [send_request, h, herr]

/-- Witness for C2's amended statement: a running client receiving a
well-formed envelope without error or result fields gets back the empty
mapping. -/
theorem send_request_cases_witness :
    (send_request (some ProcHandle.running) "initialize" (some initParams)
      (ReadResult.parsed ⟨none, none⟩)).1 = Except.ok ⟨none⟩ :=
  (send_request_cases (some ProcHandle.running) "initialize" (some initParams)
    (ReadResult.parsed ⟨none, none⟩)).2 (by simp [notRunning])
    |>.2.2.2.2 ⟨none, none⟩ rfl rfl

/-- C1: run_validation_async always returns a result record — either
the success shape or the failure shape with a single error-message
string — and a failure injected at any pipeline step (start, initialize,
policy resolution, model call) yields the failure record carrying that
step's message.  The snapshot step is total in the source: its only
fallible operations are the os.listdir calls, whose PermissionError the
walker swallows. -/
theorem run_validation_total (project_path llm_provider model api_key : String)
    (policy_content : Option String) (env : Env) (res : ValidationResult)
    (hres : res = (run_validation_async project_path llm_provider model api_key
      policy_content env).1) :
    ((∃ m, res = ValidationResult.failure m) ∨
      ∃ p fs r, res = ValidationResult.success p fs r) ∧
    (∀ m, env.startErr = some m → res = ValidationResult.failure m) ∧
    (∀ e, env.startErr = none →
      (send_request (some ProcHandle.running) "initialize" (some initParams)
        env.initRd).1 = Except.error e →
      res = ValidationResult.failure (sendErrMsg e)) ∧
    (∀ pe, env.startErr = none →
      (∃ r, (send_request (some ProcHandle.running) "initialize" (some initParams)
        env.initRd).1 = Except.ok r) →
      (get_project_guidelines policy_content (callToolRead env.rootRd)
        (callToolRead env.parentRd)).1 = Except.error pe →
      res = ValidationResult.failure (policyErrMsg pe)) ∧
    (∀ m, env.startErr = none →
      (∃ r, (send_request (some ProcHandle.running) "initialize" (some initParams)
        env.initRd).1 = Except.ok r) →
      (∃ s, (get_project_guidelines policy_content (callToolRead env.rootRd)
        (callToolRead env.parentRd)).1 = Except.ok s) →
      (llm_provider = "OpenAI" ∨ llm_provider = "Anthropic") →
      env.llm = Except.error m →
      res = ValidationResult.failure m) := by
  subst hres
  refine ⟨?_, ?_, ?_, ?_, ?_⟩
  · unfold run_validation_async
    cases hb : (runBody llm_provider policy_content env).1 with
    | ok v =>
      right
      exact ⟨v.1, v.2.1, v.2.2, by simp [hb]⟩
    | error m =>
      left
      exact ⟨m, by simp [hb]⟩
  · intro m hm
    unfold run_validation_async runBody
    rw [hm]
  · intro e hs hinit
    unfold run_validation_async runBody
    rw [hs, hinit]
  · rintro pe hs ⟨r, hinit⟩ hpol
    unfold run_validation_async runBody
    rw [hs, hinit, hpol]
  · rintro m hs ⟨r, hinit⟩ ⟨s, hpol⟩ hprov hllm
    unfold run_validation_async runBody
    rw [hs, hinit, hpol]
    rcases hprov with h | h <;> subst h <;> simp [hllm]

/-- Witness for C1: a run whose policy resolution exhausts both reads
returns the failure record carrying the FileNotFoundError message. -/
theorem run_validation_total_witness :
    (run_validation_async "/proj" "OpenAI" "m1" "k1" none
      { startErr := none,
        initRd := ReadResult.parsed ⟨none, none⟩,
        rootRd := ReadResult.timeout,
        parentRd := ReadResult.eof,
        rootListable := true,
        tree := FS.nil,
        llm := Except.ok "report" }).1 =
      ValidationResult.failure "policy.txt not found and no policy content provided" :=
  (run_validation_total "/proj" "OpenAI" "m1" "k1" none
    { startErr := none,
      initRd := ReadResult.parsed ⟨none, none⟩,
      rootRd := ReadResult.timeout,
      parentRd := ReadResult.eof,
      rootListable := true,
      tree := FS.nil,
      llm := Except.ok "report" } _ rfl).2.2.2.1 PolicyErr.notFound rfl
    ⟨⟨none⟩, rfl⟩ rfl

/-- C7: the snapshotter is deterministic — over the same tree presented
in any two directory-enumeration orders it produces the same output
list — the output is lexicographically sorted, and its members are
exactly the visible directories rendered with a trailing separator
together with the visible files rendered bare. -/
theorem snapshot_deterministic (a : Bool) (t₁ t₂ : FS) (h : FSEquiv t₁ t₂) :
    list_project_structure_sync a t₁ = list_project_structure_sync a t₂ ∧
    List.Sorted pyLe (list_project_structure_sync a t₁) ∧
    (∀ s, s ∈ list_project_structure_sync a t₁ ↔
      (a = true ∧ (s ∈ (dirPaths [] t₁).map (fun d => d ++ "/") ∨
        s ∈ filePaths [] t₁))) := by
  refine ⟨?_, pySorted_sorted _, ?_⟩
  · unfold list_project_structure_sync
    cases a with
    | false => rfl
    | true => exact pySorted_eq_of_perm _ _ (walk_perm_of_equiv h [])
  · intro s
    unfold list_project_structure_sync
    cases a with
    | false => simp [pySorted]
    | true =>
      rw [(pySorted_perm _).mem_iff]
      have hw : (if true = true then walk [] t₁ else []) = walk [] t₁ := rfl
      rw [hw, (walk_perm_split t₁ []).mem_iff]
      simp

/-- Witness for C7: two enumerations of the same two-file directory
give the identical sorted snapshot. -/
theorem snapshot_deterministic_witness :
    list_project_structure_sync true
        (FS.cons (FS.file "b") (FS.cons (FS.file "a") FS.nil)) =
      list_project_structure_sync true
        (FS.cons (FS.file "a") (FS.cons (FS.file "b") FS.nil)) ∧
    List.Sorted pyLe (list_project_structure_sync true
      (FS.cons (FS.file "b") (FS.cons (FS.file "a") FS.nil))) := by
  have h := snapshot_deterministic true
    (FS.cons (FS.file "b") (FS.cons (FS.file "a") FS.nil))
    (FS.cons (FS.file "a") (FS.cons (FS.file "b") FS.nil))
    (FSEquiv.swap (FS.file "b") (FS.file "a") FS.nil)
  exact ⟨h.1, h.2.1⟩

theorem walk_chain (t : FS) :
    ∀ pre s, s ∈ walk pre t →
      ∃ ns : List String, ns ≠ [] ∧ (∀ n ∈ ns, hiddenName n = false) ∧
        (s = String.intercalate "/" (pre ++ ns) ∨
         s = String.intercalate "/" (pre ++ ns) ++ "/") := by
  induction t with
  | file n =>
    intro pre s hs
    by_cases hn : hiddenName n
    · simp [walk, hn] at hs
    · simp [walk, hn] at hs
      subst hs
      exact ⟨[n], by simp, by simpa using hn, Or.inl rfl⟩
  | other n => intro pre s hs; simp [walk] at hs
  | dir n listable sub ih =>
    intro pre s hs
    by_cases hn : hiddenName n
    · simp [walk, hn] at hs
    · simp only [walk, if_neg hn] at hs
      rcases List.mem_cons.mp hs with h | h
      · exact ⟨[n], by simp, by simpa using hn, Or.inr (by rw [h]; rfl)⟩
      · cases listable with
        | false => simp at h
        | true =>
          obtain ⟨ns, hne, hall, hd⟩ := ih (pre ++ [n]) s (by simpa using h)
          refine ⟨n :: ns, by simp, ?_, ?_⟩
          · intro m hm
            rcases List.mem_cons.mp hm with rfl | hm₂
            · simpa using hn
            · exact hall m hm₂
          · have hperm : pre ++ [n] ++ ns = pre ++ (n :: ns) := by
              simp [List.append_assoc]
            rw [hperm] at hd
            exact hd
  | nil => intro pre s hs; simp [walk] at hs
  | cons e rest ihe ihr =>
    intro pre s hs
    rcases List.mem_append.mp (by simpa [walk] using hs) with h | h
    · exact ihe pre s h
    · exact ihr pre s h

/-- C8: every string the snapshotter outputs is the slash-joined chain
of entry names all of which are non-hidden (a bare chain for a file, a
chain with a trailing separator for a directory); hence a hidden entry
such as .env never contributes its path at any depth, and nothing
beneath a hidden directory is ever listed. -/
theorem snapshot_no_hidden (a : Bool) (t : FS) (s : String)
    (hs : s ∈ list_project_structure_sync a t) :
    ∃ ns : List String, ns ≠ [] ∧ (∀ n ∈ ns, hiddenName n = false) ∧
      (s = String.intercalate "/" ns ∨ s = String.intercalate "/" ns ++ "/") := by
  unfold list_project_structure_sync at hs
  rw [(pySorted_perm _).mem_iff] at hs
  cases a with
  | false => simp at hs
  | true =>
    obtain ⟨ns, hne, hall, hd⟩ := walk_chain t [] s hs
    exact ⟨ns, hne, hall, by simpa using hd⟩

/-- Witness for C8: in a tree holding .env beside a visible file a, the
snapshot contains a, and the theorem decomposes it into a chain of
non-hidden names. -/
theorem snapshot_no_hidden_witness :
    ∃ ns : List String, ns ≠ [] ∧ (∀ n ∈ ns, hiddenName n = false) ∧
      (("a" : String) = String.intercalate "/" ns ∨
        ("a" : String) = String.intercalate "/" ns ++ "/") :=
  snapshot_no_hidden true
    (FS.cons (FS.file ".env") (FS.cons (FS.file "a") FS.nil)) "a" (by decide)

end DataPolice
